import Mathlib

/-!
Verification of the ingestion-to-live-view pipeline of the
Real_time_tracking_Kafka repository.

The embedding models the two source scripts:
* `src/consumers/coinbaseConsumer.py` — a Kafka poll loop that prints
  messages, raises `KafkaException` on bus errors and closes the consumer
  in a `finally` block;
* `src/6DashboardOrNotifier/dashboard.py` — `fetch_trades` (a SQL query
  `ORDER BY trade_time DESC LIMIT n` followed by an ascending pandas sort)
  and the Dash callback `update_chart` (no-data figure on an empty frame,
  price trace, 10-point rolling moving average when at least 10 rows).

Timestamps are modelled as integers, prices and quantities as rationals.
-/

/-- A stored trade row of the `market.trades` table: the spec's
`StoredTrade` (symbol, trade time, price, quantity, dedup key). -/
structure StoredTrade where
  symbol : String
  tradeTime : Int
  price : ℚ
  quantity : ℚ
  dedupKey : String
deriving DecidableEq, Repr

/-- Ascending comparison of two trades by `tradeTime` (the pandas
`sort_values("trade_time")` order). -/
def timeLE (a b : StoredTrade) : Prop := a.tradeTime ≤ b.tradeTime

/-- Descending comparison of two trades by `tradeTime` (the SQL
`ORDER BY trade_time DESC` order). -/
def timeGE (a b : StoredTrade) : Prop := b.tradeTime ≤ a.tradeTime

instance : DecidableRel timeLE := fun a b => inferInstanceAs (Decidable (a.tradeTime ≤ b.tradeTime))

instance : DecidableRel timeGE := fun a b => inferInstanceAs (Decidable (b.tradeTime ≤ a.tradeTime))

instance : IsTotal StoredTrade timeLE := ⟨fun a b => Int.le_total a.tradeTime b.tradeTime⟩

instance : IsTrans StoredTrade timeLE := ⟨fun _ _ _ h h' => le_trans h h'⟩

instance : IsTotal StoredTrade timeGE := ⟨fun a b => Int.le_total b.tradeTime a.tradeTime⟩

instance : IsTrans StoredTrade timeGE := ⟨fun _ _ _ h h' => le_trans h' h⟩

/-- The SQL query of `fetch_trades`:
`SELECT trade_time, price, quantity FROM market.trades WHERE symbol = %s
ORDER BY trade_time DESC LIMIT %s`.  The table contents are modelled as a
list of rows. -/
def sqlQueryRecent (store : List StoredTrade) (symbol : String) (limit : Nat) :
    List StoredTrade :=
  ((store.filter (fun t => t.symbol == symbol)).insertionSort timeGE).take limit

/-- The pandas post-processing of `fetch_trades`: `if not df.empty:
df = df.sort_values("trade_time")` — skip the empty frame, otherwise
re-sort ascending by trade time. -/
def pandasPost (df : List StoredTrade) : List StoredTrade :=
  if df.isEmpty then df else df.insertionSort timeLE

/-- The function `fetch_trades(symbol, limit)` of `dashboard.py`: run the
SQL query, then sort ascending for the chart. -/
def fetch_trades (store : List StoredTrade) (symbol : String) (limit : Nat) :
    List StoredTrade :=
  pandasPost (sqlQueryRecent store symbol limit)

/-- Query-layer errors of the spec's History Query Service. -/
inductive QueryError where
  | invalidLimit
deriving DecidableEq, Repr

/-- The history query as the code implements it: `fetch_trades` performs no
limit validation, so every call that reaches the SQL layer succeeds with the
fetched rows (SQL `LIMIT 0` returns zero rows; a large limit just bounds the
row count). -/
def getHistoryCode (store : List StoredTrade) (symbol : String) (limit : Nat) :
    Except QueryError (List StoredTrade) :=
  Except.ok (fetch_trades store symbol limit)

/-- The pandas rolling mean `df["price"].rolling(window=k).mean()`: at each
0-based index `i` the value is absent (`NaN`) while fewer than `k` prices are
available, and is the arithmetic mean of prices at indices `i-k+1 .. i`
once `i + 1 ≥ k`. -/
def computeTrend (k : Nat) (prices : List ℚ) : List (Option ℚ) :=
  (List.range prices.length).map fun i =>
    if k ≤ i + 1 then some (((prices.drop (i + 1 - k)).take k).sum / (k : ℚ)) else none

/-- The figure `update_chart` returns: either the explicit "no data" chart
or a chart with a price trace and an optional `MA(10)` overlay. -/
inductive Figure where
  | noData (title : String)
  | chart (title : String) (priceTrace : List (Int × ℚ))
      (maTrace : Option (List (Int × Option ℚ)))
deriving DecidableEq, Repr

/-- The Dash callback `update_chart(selected_symbol, n_points, n_intervals)`:
fetch fresh rows, return the "no data" figure on an empty frame, otherwise
build the price trace and, when at least 10 rows exist, the 10-point
moving-average trace. -/
def update_chart (store : List StoredTrade) (selected_symbol : String)
    (n_points : Nat) (n_intervals : Nat) : Figure :=
  let df := fetch_trades store selected_symbol n_points
  if df.isEmpty then
    Figure.noData (selected_symbol ++ " – no data found")
  else
    let priceTrace := df.map fun t => (t.tradeTime, t.price)
    let maTrace :=
      if 10 ≤ df.length then
        some ((df.map fun t => t.tradeTime).zip (computeTrend 10 (df.map fun t => t.price)))
      else none
    Figure.chart (selected_symbol ++ " – last " ++ toString df.length ++ " trades")
      priceTrace maTrace

/-- One poll outcome seen by the consumer loop of `coinbaseConsumer.py`:
`consumer.poll(1.0)` returns `None` on timeout, a message carrying an error,
or a proper message; a `KeyboardInterrupt` may also arrive at the poll. -/
inductive PollResult where
  | timeout
  | errMsg (e : String)
  | message (key : Option String) (value : String)
  | interrupt
deriving DecidableEq, Repr

/-- How a finite run of the consumer loop ends: still inside `while True`
(input trace exhausted), terminated by an uncaught `KafkaException`, or
stopped by the `KeyboardInterrupt` handler. -/
inductive ConsumerExit where
  | running
  | raised (e : String)
  | interrupted
deriving DecidableEq, Repr

/-- Observable outcome of a finite consumer run: the lines printed, how the
loop ended, and whether `consumer.close()` (the `finally` block) has run. -/
structure RunResult where
  printed : List String
  exit : ConsumerExit
  closed : Bool
deriving DecidableEq, Repr

/-- The f-string printed for a received message. -/
def formatMessage (key : Option String) (value : String) : String :=
  "Received message: key=" ++ (match key with | some k => k | none => "None")
    ++ ", value=" ++ value

/-- The consumer loop of `coinbaseConsumer.py` run over a finite trace of
poll outcomes: `if msg is None: continue`; `if msg.error(): raise
KafkaException(msg.error())` which escapes the `try` (only
`KeyboardInterrupt` is caught) and ends the process after the `finally`
closes the consumer; otherwise print the message and loop. -/
def runConsumer : List PollResult → RunResult
  | [] => ⟨[], ConsumerExit.running, false⟩
  | PollResult.timeout :: rest => runConsumer rest
  | PollResult.errMsg e :: _ => ⟨[], ConsumerExit.raised e, true⟩
  | PollResult.message k v :: rest =>
      let r := runConsumer rest
      ⟨formatMessage k v :: r.printed, r.exit, r.closed⟩
  | PollResult.interrupt :: _ =>
      ⟨["\nInterrupted. Closing consumer..."], ConsumerExit.interrupted, true⟩

/-- Count of database connections currently open. -/
structure ConnState where
  openConns : Nat
deriving DecidableEq, Repr

/-- Model of `psycopg2.connect(DSN)`: one more open connection. -/
def connect (s : ConnState) : ConnState := ⟨s.openConns + 1⟩

/-- Model of `conn.close()`: one fewer open connection. -/
def closeConn (s : ConnState) : ConnState := ⟨s.openConns - 1⟩

/-- The function `fetch_trades` with its connection lifecycle made explicit: open the
connection, run the query (`pd.read_sql`, whose outcome — rows or a raised
error — is the `dbResult` parameter), and close the connection in the
`finally` block on both the normal and the exceptional path, re-raising the
error after the close. -/
def fetch_trades_conn (dbResult : Except String (List StoredTrade)) (s : ConnState) :
    Except String (List StoredTrade) × ConnState :=
  let s1 := connect s
  match dbResult with
  | Except.ok df => (Except.ok (pandasPost df), closeConn s1)
  | Except.error e => (Except.error e, closeConn s1)

/-- Acknowledgement of a Trade Store upsert. -/
inductive Ack where
  | ack
deriving DecidableEq, Repr

/-- Modelled from the spec: the Trade Store's `upsert(trade) -> Ack`
(spec §4.2) is absent from the source (the consumer only prints messages);
per the spec it is idempotent on `dedupKey` — re-upserting a key already in
the store is a no-op that still returns Ack, otherwise the trade is
inserted. -/
def upsert (store : List StoredTrade) (t : StoredTrade) : List StoredTrade × Ack :=
  if store.any (fun s => s.dedupKey == t.dedupKey) then (store, Ack.ack)
  else (store ++ [t], Ack.ack)

/-- Submit a whole sequence of events to the (spec-modelled) Trade Store,
starting from the empty store. -/
def upsertAll (events : List StoredTrade) : List StoredTrade :=
  events.foldl (fun s e => (upsert s e).1) []

/-- A concrete `market.trades` table used to evaluate the theorems:
three out-of-order BTCUSDT trades and one ETHUSDT trade. -/
def exampleStore : List StoredTrade :=
  [⟨"BTCUSDT", 1, 10, 1, "k1"⟩, ⟨"BTCUSDT", 3, 11, 2, "k2"⟩,
   ⟨"BTCUSDT", 2, 12, 1, "k3"⟩, ⟨"ETHUSDT", 5, 9, 1, "k4"⟩]

/-- A table with two distinct trades sharing one `tradeTime`. -/
def duplicateTimeStore : List StoredTrade :=
  [⟨"BTCUSDT", 5, 1, 1, "a"⟩, ⟨"BTCUSDT", 5, 2, 1, "b"⟩]

/-- A concrete trade event. -/
def sampleTradeA : StoredTrade := ⟨"BTCUSDT", 1, 10, 1, "k1"⟩

/-- A redelivery of `sampleTradeA`: same `dedupKey`, different payload. -/
def sampleTradeB : StoredTrade := ⟨"BTCUSDT", 1, 10, 2, "k1"⟩

/-! ## Helper lemmas -/

theorem pandasPost_perm (df : List StoredTrade) : (pandasPost df).Perm df := by
  by_cases h : df.isEmpty
  · simp [pandasPost, h]
  · simpa [pandasPost, h] using List.perm_insertionSort timeLE df

theorem pandasPost_sorted (df : List StoredTrade) :
    List.Sorted timeLE (pandasPost df) := by
  by_cases h : df.isEmpty
  · simp [pandasPost, h, List.isEmpty_iff.mp h]
  · simpa [pandasPost, h] using List.sorted_insertionSort timeLE df

theorem fetch_trades_sorted (store : List StoredTrade) (symbol : String) (limit : Nat) :
    List.Sorted timeLE (fetch_trades store symbol limit) :=
  pandasPost_sorted _

/-! ## Claim theorems -/

/-- C9: for any fixed store, selected symbol and row-count limit, the chart
recomputation `update_chart` produces identical output for any two values of
the tick counter `n_intervals`: the tick input has no influence on the
emitted snapshot. -/
theorem update_chart_ignores_tick (store : List StoredTrade) (symbol : String)
    (n_points i j : Nat) :
    update_chart store symbol n_points i = update_chart store symbol n_points j := rfl

/-- C8: when the bounded-wait poll times out with no message, the consumer
loop performs no processing, printing, commit or state change for that
cycle: the run over `timeout :: rest` is exactly the run over `rest`. -/
theorem poll_timeout_is_noop (rest : List PollResult) :
    runConsumer (PollResult.timeout :: rest) = runConsumer rest := rfl

/-- C10: `fetch_trades` closes the database connection it opened on every
execution path — the open-connection count after the call equals the count
before it, whether the query returned rows or raised an error, and the
`finally` close balances the `connect`. -/
theorem fetch_trades_closes_connection (dbResult : Except String (List StoredTrade))
    (s : ConnState) :
    ((fetch_trades_conn dbResult s).2).openConns = s.openConns ∧
    (fetch_trades_conn dbResult s).2 = closeConn (connect s) := by
  cases dbResult <;> simp [fetch_trades_conn, connect, closeConn]

/-- C5 counterexample: a bus error terminates the consumer loop.  Feeding one
error message followed by a valid message ends the run with a raised
`KafkaException`; the later message is never processed and nothing is
retried. -/
theorem bus_error_fatal_counterexample :
    (runConsumer [PollResult.errMsg "broker transport failure",
        PollResult.message none "later"]).exit
      = ConsumerExit.raised "broker transport failure" ∧
    (runConsumer [PollResult.errMsg "broker transport failure",
        PollResult.message none "later"]).printed = [] :=
  ⟨rfl, rfl⟩

/-- C5 amended: a bus error is fatal to the consumer: the loop raises
`KafkaException` immediately — no retry, no backoff, no further message is
processed — and the `finally` block closes the consumer on the way out. -/
theorem bus_error_terminates_consumer (e : String) (rest : List PollResult) :
    runConsumer (PollResult.errMsg e :: rest)
      = ⟨[], ConsumerExit.raised e, true⟩ := rfl

/-- C4 amended: the history query performs no limit validation and can never
fail with `InvalidLimit`: every call succeeds with the fetched rows, and in
particular limit `0` succeeds with an empty window. -/
theorem getHistory_never_invalidLimit (store : List StoredTrade) (symbol : String)
    (limit : Nat) :
    getHistoryCode store symbol limit = Except.ok (fetch_trades store symbol limit) ∧
    getHistoryCode store symbol 0 = Except.ok [] ∧
    (getHistoryCode store symbol limit).isOk = true := by
  refine ⟨rfl, ?_, rfl⟩
  simp [getHistoryCode, fetch_trades, sqlQueryRecent, pandasPost]

/-- C4 counterexample: on a concrete store, `getHistory(symbol, 0)` and
`getHistory(symbol, 100000)` both return data (an empty window, resp. the
stored rows) instead of failing with `InvalidLimit`. -/
theorem getHistory_out_of_bounds_counterexample :
    getHistoryCode exampleStore "BTCUSDT" 0 = Except.ok [] ∧
    getHistoryCode exampleStore "BTCUSDT" 0 ≠ Except.error QueryError.invalidLimit ∧
    (getHistoryCode exampleStore "BTCUSDT" 100000).isOk = true ∧
    getHistoryCode exampleStore "BTCUSDT" 100000 ≠ Except.error QueryError.invalidLimit := by
  have h0 : fetch_trades exampleStore "BTCUSDT" 0 = [] := by decide
  exact ⟨by simp [getHistoryCode, h0], by simp [getHistoryCode], rfl,
    by simp [getHistoryCode]⟩

/-- C6: for a symbol with no matching stored trades, the history query
returns an explicit empty window as a success value (never an error) and the
chart callback renders the distinct "no data" figure instead of failing. -/
theorem empty_symbol_yields_no_data (store : List StoredTrade) (symbol : String)
    (n m : Nat) (h : ∀ t ∈ store, t.symbol ≠ symbol) :
    getHistoryCode store symbol n = Except.ok [] ∧
    fetch_trades store symbol n = [] ∧
    update_chart store symbol n m = Figure.noData (symbol ++ " – no data found") := by
  have hf : store.filter (fun t => t.symbol == symbol) = [] :=
    List.filter_eq_nil_iff.mpr fun t ht => by simpa using h t ht
  have h2 : fetch_trades store symbol n = [] := by
    simp [fetch_trades, sqlQueryRecent, pandasPost, hf]
  exact ⟨by simp [getHistoryCode, h2], h2, by simp [update_chart, h2]⟩

/-- C6 witness: on the concrete example store, the symbol `"UNKNOWN"` has no
rows: the query yields the empty window and the callback the "no data"
figure. -/
theorem empty_symbol_yields_no_data_witness :
    (∀ t ∈ exampleStore, t.symbol ≠ "UNKNOWN") ∧
    (getHistoryCode exampleStore "UNKNOWN" 100 = Except.ok [] ∧
      fetch_trades exampleStore "UNKNOWN" 100 = [] ∧
      update_chart exampleStore "UNKNOWN" 100 7
        = Figure.noData ("UNKNOWN" ++ " – no data found")) :=
  ⟨by decide, empty_symbol_yields_no_data exampleStore "UNKNOWN" 100 7 (by decide)⟩

/-- Unfolding of `upsert` when the dedup key is already present. -/
theorem upsert_present {store : List StoredTrade} {t : StoredTrade}
    (h : (store.any fun s => s.dedupKey == t.dedupKey) = true) :
    upsert store t = (store, Ack.ack) := by
  simp only [upsert, h, if_true]

/-- Unfolding of `upsert` when the dedup key is absent. -/
theorem upsert_absent {store : List StoredTrade} {t : StoredTrade}
    (h : (store.any fun s => s.dedupKey == t.dedupKey) = false) :
    upsert store t = (store ++ [t], Ack.ack) := by
  simp only [upsert, h, Bool.false_eq_true, if_false]

/-- At most one stored trade per dedup key is an invariant of every
(spec-modelled) upsert sequence. -/
theorem upsertAll_countP_le_one (events : List StoredTrade) (k : String) :
    ((upsertAll events).countP fun s => s.dedupKey == k) ≤ 1 := by
  have key : ∀ (evs init : List StoredTrade),
      (∀ k', (init.countP fun s => s.dedupKey == k') ≤ 1) →
      ∀ k', ((evs.foldl (fun s e => (upsert s e).1) init).countP
        fun s => s.dedupKey == k') ≤ 1 := by
    intro evs
    induction evs with
    | nil => intro init h k'; simpa using h k'
    | cons e rest ih =>
        intro init h k'
        refine ih _ ?_ k'
        intro k''
        by_cases hc : (init.any fun s => s.dedupKey == e.dedupKey) = true
        · simp only [upsert_present hc]
          exact h k''
        · have hc' : (init.any fun s => s.dedupKey == e.dedupKey) = false :=
            Bool.not_eq_true _ ▸ hc
          simp only [upsert_absent hc', List.countP_append]
          by_cases he : e.dedupKey = k''
          · have hz : (init.countP fun s => s.dedupKey == k'') = 0 := by
              rw [List.countP_eq_zero]
              intro a ha hk
              refine absurd (List.any_eq_true.mpr ⟨a, ha, ?_⟩) hc
              simpa [he] using hk
            simp [hz, List.countP_cons, he]
          · have hone : (List.countP (fun s => s.dedupKey == k'') [e]) = 0 := by
              simp [List.countP_cons, he]
            rw [hone]
            simpa using h k''
  exact key events [] (fun k' => by simp) k

/-- C1: after any sequence of events is submitted to the (spec-modelled)
Trade Store — any number of times, interleaved arbitrarily — the store holds
at most one StoredTrade per dedup key, and re-upserting a trade whose dedup
key is already stored is a no-op that still returns Ack. -/
theorem store_idempotent_per_dedupKey (events : List StoredTrade) (k : String)
    (t : StoredTrade)
    (h : ((upsertAll events).any fun s => s.dedupKey == t.dedupKey) = true) :
    ((upsertAll events).countP fun s => s.dedupKey == k) ≤ 1 ∧
    upsert (upsertAll events) t = (upsertAll events, Ack.ack) :=
  ⟨upsertAll_countP_le_one events k, upsert_present h⟩

/-- C1 witness: after inserting one concrete trade, a redelivery with the
same dedup key but a different payload is a no-op returning Ack, and the key
`"k1"` is stored at most once. -/
theorem store_idempotent_per_dedupKey_witness :
    ((upsertAll [sampleTradeA]).any fun s => s.dedupKey == sampleTradeB.dedupKey) = true ∧
    (((upsertAll [sampleTradeA]).countP fun s => s.dedupKey == "k1") ≤ 1 ∧
      upsert (upsertAll [sampleTradeA]) sampleTradeB
        = (upsertAll [sampleTradeA], Ack.ack)) :=
  ⟨by decide, store_idempotent_per_dedupKey [sampleTradeA] "k1" sampleTradeB (by decide)⟩

/-- C7: the history query returns at most `limit` rows, presents them in
chronological (ascending `tradeTime`) order, and they are the most recent
matching trades: every matching trade left out of the window is no newer
than any trade in it. -/
theorem query_returns_recent_window (store : List StoredTrade) (symbol : String)
    (limit : Nat) :
    (fetch_trades store symbol limit).length ≤ limit ∧
    List.Sorted timeLE (fetch_trades store symbol limit) ∧
    ∀ t ∈ store, t.symbol = symbol → t ∉ fetch_trades store symbol limit →
      ∀ r ∈ fetch_trades store symbol limit, t.tradeTime ≤ r.tradeTime := by
  have hperm : (fetch_trades store symbol limit).Perm (sqlQueryRecent store symbol limit) :=
    pandasPost_perm _
  refine ⟨?_, fetch_trades_sorted store symbol limit, ?_⟩
  · rw [hperm.length_eq]
    rw [sqlQueryRecent, List.length_take]
    exact min_le_left _ _
  · intro t ht hsym hnot r hr
    set m := store.filter (fun t => t.symbol == symbol) with hm
    set d := m.insertionSort timeGE with hd
    have htm : t ∈ m := List.mem_filter.mpr ⟨ht, by simp [hsym]⟩
    have htd : t ∈ d := (List.perm_insertionSort timeGE m).symm.subset htm
    have hnot' : t ∉ d.take limit := fun hc => hnot (hperm.symm.subset hc)
    have hrd : r ∈ d.take limit := hperm.subset hr
    have hsort : List.Pairwise timeGE d := List.sorted_insertionSort timeGE m
    have hsplit : List.Pairwise timeGE (d.take limit ++ d.drop limit) := by
      rwa [List.take_append_drop]
    have htdrop : t ∈ d.drop limit := by
      rw [← List.take_append_drop limit d] at htd
      rcases List.mem_append.mp htd with hl | hr2
      · exact absurd hl hnot'
      · exact hr2
    exact (List.pairwise_append.mp hsplit).2.2 r hrd t htdrop

/-- C7 witness: on the example store with limit 2, the window length is at
most 2, and the excluded oldest BTCUSDT trade (time 1) is no newer than the
window member with time 2. -/
theorem query_returns_recent_window_witness :
    (fetch_trades exampleStore "BTCUSDT" 2).length ≤ 2 ∧
    (⟨"BTCUSDT", 1, 10, 1, "k1"⟩ : StoredTrade).tradeTime
      ≤ (⟨"BTCUSDT", 2, 12, 1, "k3"⟩ : StoredTrade).tradeTime :=
  ⟨(query_returns_recent_window exampleStore "BTCUSDT" 2).1,
    (query_returns_recent_window exampleStore "BTCUSDT" 2).2.2
      ⟨"BTCUSDT", 1, 10, 1, "k1"⟩ (by decide) (by decide) (by decide)
      ⟨"BTCUSDT", 2, 12, 1, "k3"⟩ (by decide)⟩

/-- C2 counterexample: two distinct trades sharing one `tradeTime` both end
up in the query result, which is therefore not *strictly* ascending by
`tradeTime`. -/
theorem query_not_strictly_sorted_counterexample :
    ¬ List.Pairwise (fun a b : StoredTrade => a.tradeTime < b.tradeTime)
      (fetch_trades duplicateTimeStore "BTCUSDT" 2) := by decide

/-- C2 amended: the query result is always sorted ascending (non-strictly,
i.e. non-decreasing) by `tradeTime`; it is strictly ascending whenever the
stored trades matching the symbol carry pairwise-distinct trade times. -/
theorem query_sorted_time_ascending (store : List StoredTrade) (symbol : String)
    (limit : Nat) :
    List.Sorted timeLE (fetch_trades store symbol limit) ∧
    ((((store.filter fun t => t.symbol == symbol).map fun t => t.tradeTime).Nodup) →
      List.Pairwise (fun a b : StoredTrade => a.tradeTime < b.tradeTime)
        (fetch_trades store symbol limit)) := by
  refine ⟨fetch_trades_sorted store symbol limit, ?_⟩
  intro hnodup
  set m := store.filter (fun t => t.symbol == symbol) with hm
  set d := m.insertionSort timeGE with hd
  have hdn : ((d.map fun t => t.tradeTime)).Nodup :=
    (List.Perm.map _ (List.perm_insertionSort timeGE m).symm).nodup hnodup
  have htk : (((d.take limit).map fun t => t.tradeTime)).Nodup :=
    List.Nodup.sublist (List.Sublist.map _ (List.take_sublist limit d)) hdn
  have hres : (((fetch_trades store symbol limit).map fun t => t.tradeTime)).Nodup :=
    (List.Perm.map _ (pandasPost_perm (d.take limit)).symm).nodup htk
  have hsorted : List.Sorted (· ≤ ·)
      ((fetch_trades store symbol limit).map fun t => t.tradeTime) :=
    List.pairwise_map.mpr (fetch_trades_sorted store symbol limit)
  have hlt := hsorted.lt_of_le hres
  exact List.pairwise_map.mp hlt

/-- C2 witness: on the example store, whose BTCUSDT trades carry distinct
trade times, the returned window is both non-decreasing and strictly
ascending. -/
theorem query_sorted_time_ascending_witness :
    List.Sorted timeLE (fetch_trades exampleStore "BTCUSDT" 2) ∧
    List.Pairwise (fun a b : StoredTrade => a.tradeTime < b.tradeTime)
      (fetch_trades exampleStore "BTCUSDT" 2) :=
  ⟨(query_sorted_time_ascending exampleStore "BTCUSDT" 2).1,
    (query_sorted_time_ascending exampleStore "BTCUSDT" 2).2 (by decide)⟩

/-- Counting lemma for the rolling window: over indices `0 .. N-1` the guard
`k ≤ i + 1` holds for exactly `N + 1 - k` indices (natural subtraction,
i.e. `max(0, N - k + 1)`). -/
theorem length_filterMap_window {α : Type} (g : Nat → α) (k : Nat) (hk : 1 ≤ k) :
    ∀ N : Nat, ((List.range N).filterMap
      fun i => if k ≤ i + 1 then some (g i) else none).length = N + 1 - k := by
  intro N
  induction N with
  | zero => simp only [List.range_zero, List.filterMap_nil, List.length_nil]; omega
  | succ n ih =>
      rw [List.range_succ, List.filterMap_append, List.length_append, ih]
      by_cases h : k ≤ n + 1
      · simp [h]
        omega
      · simp [h]
        omega

/-- C3: over a window of `N` prices with window size `k ≥ 1`, the
moving-average computation is aligned with the window (length `N`), carries
exactly `max(0, N - k + 1)` trend points, produces no point at any index
`i < k - 1`, and at each index `i ≥ k - 1` produces the exact arithmetic
mean of the `k`-length sub-range of prices ending at `i`. -/
theorem computeTrend_window_correct (prices : List ℚ) (k : Nat) (hk : 1 ≤ k) :
    (computeTrend k prices).length = prices.length ∧
    ((computeTrend k prices).filterMap id).length = prices.length + 1 - k ∧
    (∀ i : Nat, i + 1 < k → i < prices.length → (computeTrend k prices)[i]? = some none) ∧
    (∀ i : Nat, i < prices.length → k ≤ i + 1 →
      ((prices.drop (i + 1 - k)).take k).length = k ∧
      (computeTrend k prices)[i]? =
        some (some (((prices.drop (i + 1 - k)).take k).sum / (k : ℚ)))) := by
  refine ⟨by simp [computeTrend], ?_, ?_, ?_⟩
  · rw [computeTrend, List.filterMap_map]
    exact length_filterMap_window _ k hk prices.length
  · intro i h hi
    rw [computeTrend, List.getElem?_map, List.getElem?_range hi]
    simp only [Option.map_some']
    rw [if_neg (by omega)]
  · intro i hi hk'
    constructor
    · rw [List.length_take, List.length_drop]
      omega
    · rw [computeTrend, List.getElem?_map, List.getElem?_range hi]
      simp only [Option.map_some']
      rw [if_pos hk']

/-- C3 witness: on the spec's example — prices `[1,2,3,4,5]`, window size 3 —
the trend is aligned with the window and holds exactly `5 + 1 - 3 = 3`
points. -/
theorem computeTrend_window_correct_witness :
    1 ≤ 3 ∧ (computeTrend 3 [(1 : ℚ), 2, 3, 4, 5]).length = 5 ∧
    ((computeTrend 3 [(1 : ℚ), 2, 3, 4, 5]).filterMap id).length = 3 :=
  ⟨by decide, (computeTrend_window_correct [(1 : ℚ), 2, 3, 4, 5] 3 (by decide)).1,
    (computeTrend_window_correct [(1 : ℚ), 2, 3, 4, 5] 3 (by decide)).2.1⟩

/-- The spec's worked example evaluated: prices `[1,2,3,4,5]` with window
size 3 give trend points at indices 2, 3, 4 with values 2, 3, 4. -/
theorem computeTrend_example :
    computeTrend 3 [(1 : ℚ), 2, 3, 4, 5] = [none, none, some 2, some 3, some 4] := by
  norm_num [computeTrend, List.range_succ]
